import Mathlib

/-!
Shallow embedding of the SobudoSynth VST instrument (src/src/lib.rs): a
monophonic sine synthesizer with a linear attack envelope.

State-machine fields (`sample_rate`, `time`, `note_duration`, the two
parameters) are modelled over `ℚ`, so all state transitions are executable
and decidable; the audio output of a frame, which involves `sin` and
`exp2`, is modelled over `ℝ`.
-/

open Real

/-- The parameter block of the plugin (src lib.rs `GainEffectParameters`):
two host-writable scalars, amplitude and attack. -/
structure GainEffectParameters where
  amplitude : ℚ
  attack : ℚ
deriving DecidableEq

/-- The synthesizer state (src lib.rs `SineSynth`). -/
structure SineSynth where
  sample_rate : ℚ
  time : ℚ
  note_duration : ℚ
  note : Option ℕ
  params : GainEffectParameters
deriving DecidableEq

/-- Rust `p as i8` on a `u8` value: reinterpret the low byte as a signed
8-bit integer. -/
def u8AsI8 (p : ℕ) : ℤ :=
  if p % 256 < 128 then (p % 256 : ℤ) else (p % 256 : ℤ) - 256

/-- Wrapping subtraction on 8-bit signed integers (what Rust `i8`
subtraction computes when it does not trap). -/
def i8Sub (a b : ℤ) : ℤ :=
  (a - b + 128) % 256 - 128

/-- The signed 8-bit intermediate `pitch as i8 - A4_PITCH` of
`midi_pitch_to_freq` (src lib.rs line 22). -/
def midiNoteOffset (p : ℕ) : ℤ :=
  i8Sub (u8AsI8 p) 69

/-- src lib.rs `midi_pitch_to_freq`:
`((f64::from(pitch as i8 - A4_PITCH)) / 12.).exp2() * A4_FREQ`
with `A4_PITCH = 69`, `A4_FREQ = 440.0`. -/
noncomputable def midi_pitch_to_freq (p : ℕ) : ℝ :=
  Real.rpow 2 ((midiNoteOffset p : ℝ) / 12) * 440

/-- src lib.rs `pub const TAU: f64 = PI * 2.0`. -/
noncomputable def TAU : ℝ := Real.pi * 2

/-- src lib.rs `Default for GainEffectParameters`: amplitude 0.5, attack 0.5. -/
def GainEffectParameters.default : GainEffectParameters :=
  { amplitude := 1/2, attack := 1/2 }

/-- src lib.rs `Default for SineSynth`: sample_rate 44100, time 0,
note_duration 0, no note held, default parameters. -/
def SineSynth.default : SineSynth :=
  { sample_rate := 44100, time := 0, note_duration := 0, note := none,
    params := GainEffectParameters.default }

/-- src lib.rs `SineSynth::time_per_sample`: `1.0 / self.sample_rate`. -/
def time_per_sample (s : SineSynth) : ℚ :=
  1 / s.sample_rate

/-- src lib.rs `SineSynth::note_on`: reset `note_duration` to 0 and hold
the new note, regardless of the prior state. -/
def note_on (s : SineSynth) (note : ℕ) : SineSynth :=
  { s with note_duration := 0, note := some note }

/-- src lib.rs `SineSynth::note_off`: clear the held note only when it
matches; otherwise leave the state untouched. -/
def note_off (s : SineSynth) (note : ℕ) : SineSynth :=
  if s.note = some note then { s with note := none } else s

/-- src lib.rs `SineSynth::process_midi_event`: dispatch on the status
byte, 128 = note-off, 144 = note-on, anything else ignored. -/
def process_midi_event (s : SineSynth) (data : ℕ × ℕ × ℕ) : SineSynth :=
  if data.1 = 128 then note_off s data.2.1
  else if data.1 = 144 then note_on s data.2.1
  else s

/-- src lib.rs `Plugin::set_sample_rate`: store the host-supplied rate
verbatim (no validation, no clamping). -/
def set_sample_rate (s : SineSynth) (rate : ℚ) : SineSynth :=
  { s with sample_rate := rate }

/-- The envelope multiplier computed per sample in `process`
(src lib.rs lines 143-147): `if note_duration < attack
{ note_duration / attack } else { 1.0 }`. -/
def alphaOf (note_duration attack : ℚ) : ℚ :=
  if note_duration < attack then note_duration / attack else 1

/-- The state update of one iteration of the `process` loop
(src lib.rs lines 151-152): when a note is held, `time` and
`note_duration` each advance by `time_per_sample`; when silent, nothing
advances. -/
def processFrameState (s : SineSynth) : SineSynth :=
  match s.note with
  | some _ => { s with time := s.time + time_per_sample s,
                       note_duration := s.note_duration + time_per_sample s }
  | none => s

/-- The mono output value of one iteration of the `process` loop
(src lib.rs lines 138-154): `sin(time * freq * TAU) * alpha * amplitude`
when a note is held, `0.0` when silent. -/
noncomputable def outputSample (s : SineSynth) : ℝ :=
  match s.note with
  | some n =>
      Real.sin ((s.time : ℝ) * midi_pitch_to_freq n * TAU)
        * (alphaOf s.note_duration s.params.attack : ℝ)
        * (s.params.amplitude : ℝ)
  | none => 0

/-- src lib.rs `Plugin::process`, run for a given number of frames:
returns the final state and the per-frame mono output values, in order. -/
noncomputable def processSamples : SineSynth → ℕ → SineSynth × List ℝ
  | s, 0 => (s, [])
  | s, k + 1 =>
      let out := outputSample s
      let p := processSamples (processFrameState s) k
      (p.1, out :: p.2)

/-- src lib.rs `Plugin::process` including the channel broadcast
(lines 156-159): each frame's value is written identically to every
output channel. Result: final state and the frame-major buffer. -/
noncomputable def processBuffer (s : SineSynth) (samples channels : ℕ) :
    SineSynth × List (List ℝ) :=
  let p := processSamples s samples
  (p.1, p.2.map (fun v => List.replicate channels v))

/-- src lib.rs `PluginParameters::get_parameter`: index 0 = amplitude,
index 1 = attack, anything else 0.0. -/
def get_parameter (p : GainEffectParameters) (index : ℤ) : ℚ :=
  if index = 0 then p.amplitude
  else if index = 1 then p.attack
  else 0

/-- src lib.rs `PluginParameters::set_parameter`: index 0 = amplitude,
index 1 = attack, anything else a no-op; the value is stored verbatim,
with no validation or clamping. -/
def set_parameter (p : GainEffectParameters) (index : ℤ) (val : ℚ) :
    GainEffectParameters :=
  if index = 0 then { p with amplitude := val }
  else if index = 1 then { p with attack := val }
  else p

/-- States reachable from the default-constructed synthesizer through its
public operations, with the host supplying positive sample rates (spec
sections 6 and 7 treat a zero or negative rate as host misuse). -/
inductive Reachable : SineSynth → Prop
  | init : Reachable SineSynth.default
  | rate (s : SineSynth) (r : ℚ) : Reachable s → 0 < r →
      Reachable (set_sample_rate s r)
  | midi (s : SineSynth) (d : ℕ × ℕ × ℕ) : Reachable s →
      Reachable (process_midi_event s d)
  | frame (s : SineSynth) : Reachable s → Reachable (processFrameState s)
  | param (s : SineSynth) (i : ℤ) (v : ℚ) : Reachable s →
      Reachable { s with params := set_parameter s.params i v }

lemma note_on_note_duration (s : SineSynth) (n : ℕ) :
    (note_on s n).note_duration = 0 := rfl

lemma note_off_note_duration (s : SineSynth) (n : ℕ) :
    (note_off s n).note_duration = s.note_duration := by
  unfold note_off; split <;> rfl

lemma process_midi_event_sample_rate (s : SineSynth) (d : ℕ × ℕ × ℕ) :
    (process_midi_event s d).sample_rate = s.sample_rate := by
  unfold process_midi_event note_off note_on
  split <;> [skip; split] <;> first | rfl | (split <;> rfl)

lemma processFrameState_sample_rate (s : SineSynth) :
    (processFrameState s).sample_rate = s.sample_rate := by
  unfold processFrameState
  cases s.note <;> rfl

/-- Invariant along reachable states: the sample rate is positive and the
note duration is nonnegative. -/
lemma reachable_invariant {s : SineSynth} (h : Reachable s) :
    0 < s.sample_rate ∧ 0 ≤ s.note_duration := by
  induction h with
  | init =>
      constructor <;> norm_num [SineSynth.default]
  | rate s r _ hr ih =>
      exact ⟨hr, ih.2⟩
  | midi s d _ ih =>
      refine ⟨(process_midi_event_sample_rate s d).symm ▸ ih.1, ?_⟩
      unfold process_midi_event
      split
      · rw [note_off_note_duration]; exact ih.2
      · split
        · rw [note_on_note_duration]
        · exact ih.2
  | frame s _ ih =>
      refine ⟨(processFrameState_sample_rate s).symm ▸ ih.1, ?_⟩
      unfold processFrameState
      cases s.note with
      | none => exact ih.2
      | some n =>
          have hpos : 0 < time_per_sample s := by
            unfold time_per_sample
            exact one_div_pos.mpr ih.1
          simp only
          have := ih.2
          linarith
  | param s i v _ ih =>
      exact ih

lemma midiNoteOffset_eq {n : ℕ} (h : n ≤ 127) : midiNoteOffset n = (n : ℤ) - 69 := by
  unfold midiNoteOffset u8AsI8 i8Sub
  have hm : n % 256 = n := Nat.mod_eq_of_lt (by omega)
  rw [hm, if_pos (by omega : n < 128)]
  omega

lemma midi_pitch_to_freq_69 : midi_pitch_to_freq 69 = 440 := by
  have h : midiNoteOffset 69 = 0 := by decide
  unfold midi_pitch_to_freq
  rw [h]
  norm_num

/-- Claim C4: for every MIDI note `n` in `[0,127]`, the signed 8-bit
intermediate of the pitch converter does not wrap (no overflow), the
result equals the reference formula `440 * 2 ^ ((n - 69) / 12)`, the
reference pitch 69 maps to exactly 440 Hz, and the result is positive
(notes below 69 give a negative exponent, hence a frequency below 440). -/
theorem midi_pitch_to_freq_correct (n : ℕ) (h : n ≤ 127) :
    midiNoteOffset n = (n : ℤ) - 69 ∧
    midi_pitch_to_freq n = 440 * Real.rpow 2 (((n : ℝ) - 69) / 12) ∧
    midi_pitch_to_freq 69 = 440 ∧
    0 < midi_pitch_to_freq n := by
  have hoff := midiNoteOffset_eq h
  refine ⟨hoff, ?_, midi_pitch_to_freq_69, ?_⟩
  · unfold midi_pitch_to_freq
    rw [hoff]
    push_cast
    ring
  · unfold midi_pitch_to_freq
    exact mul_pos (Real.rpow_pos_of_pos (by norm_num) _) (by norm_num)

theorem midi_pitch_to_freq_correct_witness :
    midiNoteOffset 60 = ((60 : ℕ) : ℤ) - 69 ∧
    midi_pitch_to_freq 60 = 440 * Real.rpow 2 ((((60 : ℕ) : ℝ) - 69) / 12) ∧
    midi_pitch_to_freq 69 = 440 ∧
    0 < midi_pitch_to_freq 60 :=
  midi_pitch_to_freq_correct 60 (by norm_num)

/-- Claim C5: the pitch converter is strictly monotone on the valid MIDI
note range: `n1 < n2 ≤ 127` implies `frequency_of(n1) < frequency_of(n2)`. -/
theorem midi_pitch_to_freq_mono (n1 n2 : ℕ) (h12 : n1 < n2) (h2 : n2 ≤ 127) :
    midi_pitch_to_freq n1 < midi_pitch_to_freq n2 := by
  have e1 := midiNoteOffset_eq (le_trans (le_of_lt h12) h2)
  have e2 := midiNoteOffset_eq h2
  unfold midi_pitch_to_freq
  rw [e1, e2]
  have hlt : (((n1 : ℤ) - 69 : ℤ) : ℝ) / 12 < (((n2 : ℤ) - 69 : ℤ) : ℝ) / 12 := by
    have : (n1 : ℝ) < (n2 : ℝ) := by exact_mod_cast h12
    push_cast
    linarith
  exact mul_lt_mul_of_pos_right
    ((Real.rpow_lt_rpow_left_iff one_lt_two).mpr hlt) (by norm_num)

theorem midi_pitch_to_freq_mono_witness :
    midi_pitch_to_freq 60 < midi_pitch_to_freq 69 :=
  midi_pitch_to_freq_mono 60 69 (by norm_num) (by norm_num)

/-- Claim C6: a note-off transitions to Silent exactly when the held note
matches; a mismatched note-off (or one arriving while already silent) is
a no-op leaving the whole state, held note included, unchanged. -/
theorem note_off_correct (s : SineSynth) (n : ℕ) :
    (s.note = some n → note_off s n = { s with note := none }) ∧
    (s.note ≠ some n → note_off s n = s) := by
  constructor <;> intro h <;> simp [note_off, h]

theorem note_off_correct_witness :
    note_off (note_on SineSynth.default 60) 61 = note_on SineSynth.default 60 ∧
    note_off (note_on SineSynth.default 60) 60 =
      { note_on SineSynth.default 60 with note := none } :=
  ⟨(note_off_correct (note_on SineSynth.default 60) 61).2 (by decide),
   (note_off_correct (note_on SineSynth.default 60) 60).1 (by decide)⟩

/-- Claim C7: every note-on, regardless of prior state, sets the held
note and resets `note_duration` to 0; with that reset, the envelope
multiplier is 0 again whenever the attack parameter is positive. -/
theorem note_on_resets (s : SineSynth) (n : ℕ) :
    (note_on s n).note = some n ∧
    (note_on s n).note_duration = 0 ∧
    ∀ a : ℚ, 0 < a → alphaOf 0 a = 0 := by
  refine ⟨rfl, rfl, fun a ha => ?_⟩
  unfold alphaOf
  rw [if_pos ha]
  exact zero_div a

theorem note_on_resets_witness :
    (note_on SineSynth.default 60).note = some 60 ∧
    (note_on SineSynth.default 60).note_duration = 0 ∧
    alphaOf 0 (1/2) = 0 :=
  ⟨(note_on_resets SineSynth.default 60).1,
   (note_on_resets SineSynth.default 60).2.1,
   (note_on_resets SineSynth.default 60).2.2 (1/2) (by norm_num)⟩

/-- Claim C2: on every reachable state (so `note_duration` is
nonnegative), when the attack parameter is 0 the envelope's division
branch is never taken for a frame generated in the Sounding state and
the multiplier is 1 immediately: no division by zero occurs. -/
theorem attack_zero_no_div (s : SineSynth) (n : ℕ) (hs : Reachable s)
    (_hn : s.note = some n) (ha : s.params.attack = 0) :
    ¬ s.note_duration < s.params.attack ∧
    alphaOf s.note_duration s.params.attack = 1 := by
  have h0 := (reachable_invariant hs).2
  rw [ha]
  refine ⟨not_lt.mpr h0, ?_⟩
  unfold alphaOf
  rw [if_neg (not_lt.mpr h0)]

theorem attack_zero_no_div_witness :
    ¬ (process_midi_event
        { SineSynth.default with
            params := set_parameter SineSynth.default.params 1 0 }
        (144, 60, 0)).note_duration <
      (process_midi_event
        { SineSynth.default with
            params := set_parameter SineSynth.default.params 1 0 }
        (144, 60, 0)).params.attack ∧
    alphaOf
      (process_midi_event
        { SineSynth.default with
            params := set_parameter SineSynth.default.params 1 0 }
        (144, 60, 0)).note_duration
      (process_midi_event
        { SineSynth.default with
            params := set_parameter SineSynth.default.params 1 0 }
        (144, 60, 0)).params.attack = 1 :=
  attack_zero_no_div _ 60
    (Reachable.midi _ (144, 60, 0) (Reachable.param SineSynth.default 1 0 Reachable.init))
    (by decide) (by decide)

/-- Claim C10: `set_parameter` stores a negative attack value verbatim
(no clamping), and for any nonnegative `note_duration` the envelope
branch `note_duration < attack` is then never taken, so the multiplier
is 1 from the first frame on: the ramp is skipped with no division error
and no negative envelope. -/
theorem negative_attack_skips_ramp (p : GainEffectParameters) (v nd : ℚ)
    (hv : v < 0) (hnd : 0 ≤ nd) :
    (set_parameter p 1 v).attack = v ∧
    ¬ nd < (set_parameter p 1 v).attack ∧
    alphaOf nd (set_parameter p 1 v).attack = 1 := by
  have hstore : (set_parameter p 1 v).attack = v := by
    simp [set_parameter]
  rw [hstore]
  have hvnd : ¬ nd < v := not_lt.mpr (le_of_lt (lt_of_lt_of_le hv hnd))
  refine ⟨rfl, hvnd, ?_⟩
  unfold alphaOf
  rw [if_neg hvnd]

theorem negative_attack_skips_ramp_witness :
    (set_parameter GainEffectParameters.default 1 (-1)).attack = -1 ∧
    ¬ (0 : ℚ) < (set_parameter GainEffectParameters.default 1 (-1)).attack ∧
    alphaOf 0 (set_parameter GainEffectParameters.default 1 (-1)).attack = 1 :=
  negative_attack_skips_ramp GainEffectParameters.default (-1) 0
    (by norm_num) (le_refl 0)

lemma processSamples_silent (s : SineSynth) (h : s.note = none) (k : ℕ) :
    processSamples s k = (s, List.replicate k 0) := by
  induction k with
  | zero => rfl
  | succ k ih =>
      have hfix : processFrameState s = s := by
        unfold processFrameState
        rw [h]
      have hout : outputSample s = 0 := by
        unfold outputSample
        rw [h]
      simp only [processSamples, hfix, hout, ih, List.replicate_succ]

/-- Claim C8: while Silent, the process loop writes exactly 0 to every
output channel of every frame and leaves the whole state — in particular
`time` and `note_duration` — unchanged, for any buffer size and channel
count; this covers an engine that never received a note-on. -/
theorem silent_process_all_zero (s : SineSynth) (h : s.note = none)
    (k c : ℕ) :
    processBuffer s k c = (s, List.replicate k (List.replicate c 0)) := by
  unfold processBuffer
  rw [processSamples_silent s h k]
  simp [List.map_replicate]

theorem silent_process_all_zero_witness :
    processBuffer SineSynth.default 3 2 =
      (SineSynth.default, List.replicate 3 (List.replicate 2 0)) :=
  silent_process_all_zero SineSynth.default rfl 3 2

/-- Claim C3, behaviour at the failing input: `set_sample_rate` performs
no validation at all — a zero or a negative rate is stored verbatim and
feeds `time_per_sample = 1 / sample_rate` unchecked, with no clamping
and no diagnostic (the code has no error channel). -/
theorem set_sample_rate_stores_verbatim :
    (set_sample_rate SineSynth.default 0).sample_rate = 0 ∧
    (set_sample_rate SineSynth.default (-1)).sample_rate = -1 ∧
    ∀ (s : SineSynth) (r : ℚ), set_sample_rate s r = { s with sample_rate := r } :=
  ⟨rfl, rfl, fun _ _ => rfl⟩

lemma processFrameState_nd_mono (s : SineSynth) (hr : 0 < s.sample_rate) :
    s.note_duration ≤ (processFrameState s).note_duration := by
  unfold processFrameState
  cases hnote : s.note with
  | none => exact le_refl _
  | some n =>
      have hpos : 0 < time_per_sample s := by
        unfold time_per_sample
        exact one_div_pos.mpr hr
      simp only
      linarith

lemma processSamples_nd_mono (k : ℕ) :
    ∀ s : SineSynth, 0 < s.sample_rate →
      s.note_duration ≤ ((processSamples s k).1).note_duration := by
  induction k with
  | zero => intro s _; exact le_refl _
  | succ k ih =>
      intro s hr
      have h1 := processFrameState_nd_mono s hr
      have hr2 : 0 < (processFrameState s).sample_rate := by
        rw [processFrameState_sample_rate]; exact hr
      have h2 := ih (processFrameState s) hr2
      calc s.note_duration ≤ (processFrameState s).note_duration := h1
        _ ≤ ((processSamples (processFrameState s) k).1).note_duration := h2
        _ = ((processSamples s (k + 1)).1).note_duration := rfl

/-- Claim C9: under positive sample rates, every engine operation
preserves `note_duration ≥ 0`: note-on resets it to exactly 0, note-off
leaves it unchanged, MIDI event processing keeps it nonnegative, a
generated frame advances it by exactly `1 / sample_rate` in the Sounding
state and never decreases it, it is non-decreasing across any number of
frames, and on every reachable state it is nonnegative. -/
theorem note_duration_invariant (s : SineSynth) (n : ℕ) (d : ℕ × ℕ × ℕ)
    (hr : 0 < s.sample_rate) (h0 : 0 ≤ s.note_duration) :
    (note_on s n).note_duration = 0 ∧
    (note_off s n).note_duration = s.note_duration ∧
    0 ≤ (process_midi_event s d).note_duration ∧
    s.note_duration ≤ (processFrameState s).note_duration ∧
    (∀ m, s.note = some m →
      (processFrameState s).note_duration = s.note_duration + 1 / s.sample_rate) ∧
    (∀ k, s.note_duration ≤ ((processSamples s k).1).note_duration) ∧
    (∀ t, Reachable t → 0 ≤ t.note_duration) := by
  refine ⟨note_on_note_duration s n, note_off_note_duration s n, ?_, ?_, ?_, ?_, ?_⟩
  · unfold process_midi_event
    split
    · rw [note_off_note_duration]; exact h0
    · split
      · rw [note_on_note_duration]
      · exact h0
  · exact processFrameState_nd_mono s hr
  · intro m hm
    unfold processFrameState time_per_sample
    rw [hm]
  · exact fun k => processSamples_nd_mono k s hr
  · exact fun t ht => (reachable_invariant ht).2

theorem note_duration_invariant_witness :
    (note_on (note_on SineSynth.default 60) 61).note_duration = 0 ∧
    (note_off (note_on SineSynth.default 60) 61).note_duration =
      (note_on SineSynth.default 60).note_duration ∧
    (processFrameState (note_on SineSynth.default 60)).note_duration =
      (note_on SineSynth.default 60).note_duration +
        1 / (note_on SineSynth.default 60).sample_rate ∧
    (note_on SineSynth.default 60).note_duration ≤
      ((processSamples (note_on SineSynth.default 60) 3).1).note_duration := by
  have h := note_duration_invariant (note_on SineSynth.default 60) 61 (128, 61, 0)
    (by decide) (by decide)
  exact ⟨h.1, h.2.1, h.2.2.2.2.1 60 rfl, h.2.2.2.2.2.1 3⟩

/-- The E2E scenario state: default construction, amplitude set to 1.0,
attack set to 0.0 through `set_parameter`, then note-on(69). -/
def scenarioE2E : SineSynth :=
  note_on
    { SineSynth.default with
        params := set_parameter (set_parameter SineSynth.default.params 0 1) 1 0 }
    69

lemma scenarioE2E_eq :
    scenarioE2E =
      { sample_rate := 44100, time := 0, note_duration := 0, note := some 69,
        params := { amplitude := 1, attack := 0 } } := by decide

lemma scenario_first_output : outputSample scenarioE2E = 0 := by
  rw [scenarioE2E_eq]
  unfold outputSample
  norm_num

lemma scenario_sin_lower_bound :
    1 / 20 < Real.sin (1 / 44100 * 440 * (2 * Real.pi)) := by
  have hpi1 : 3.14 < Real.pi := Real.pi_gt_d2
  have hpi2 : Real.pi < 3.15 := Real.pi_lt_d2
  set x : ℝ := 1 / 44100 * 440 * (2 * Real.pi) with hx
  have hxeq : x = 880 / 44100 * Real.pi := by rw [hx]; ring
  have hxl : (0.06 : ℝ) < x := by
    rw [hxeq]
    nlinarith
  have hxu : x < (0.063 : ℝ) := by
    rw [hxeq]
    nlinarith
  have hsin := Real.sin_gt_sub_cube (by linarith : (0 : ℝ) < x)
    (by linarith : x ≤ 1)
  have hcube : x ^ 3 < (0.063 : ℝ) ^ 3 :=
    pow_lt_pow_left₀ hxu (by linarith) (by norm_num)
  nlinarith

/-- Claim C1 as stated is false: in the E2E scenario the FIRST output
sample is exactly 0 (the code reads `time = 0` before advancing it), while
the claimed value `sin(1/44100 * 440 * 2π)` exceeds 1/20, so the first
sample is not approximately the claimed value. -/
theorem first_sample_refutes_claim :
    (processSamples scenarioE2E 1).2 = [0] ∧
    1 / 20 < Real.sin (1 / 44100 * 440 * (2 * Real.pi)) := by
  constructor
  · simp only [processSamples, scenario_first_output]
  · exact scenario_sin_lower_bound

lemma scenario_second_state :
    processFrameState scenarioE2E =
      { sample_rate := 44100, time := 1/44100, note_duration := 1/44100,
        note := some 69, params := { amplitude := 1, attack := 0 } } := by
  rw [scenarioE2E_eq]
  unfold processFrameState time_per_sample
  norm_num

lemma scenario_second_output :
    outputSample (processFrameState scenarioE2E) =
      Real.sin (1 / 44100 * 440 * (2 * Real.pi)) := by
  rw [scenario_second_state]
  unfold outputSample
  simp only [midi_pitch_to_freq_69, TAU, alphaOf]
  norm_num
  congr 1
  ring

/-- Claim C1 amended: in the E2E scenario (sample_rate 44100, amplitude
1.0, attack 0.0, note-on(69)) the first output sample is exactly 0 — the
code reads `time = 0` before advancing it — and it is the second output
sample that equals `sin(1/44100 * 440 * 2π)`, scaled by amplitude 1.0,
with alpha = 1 immediately since note_duration 0 >= attack 0. -/
theorem second_sample_matches_spec :
    (processSamples scenarioE2E 2).2 =
      [0, Real.sin (1 / 44100 * 440 * (2 * Real.pi))] := by
  have h2 : processSamples scenarioE2E 2 =
      ((processSamples (processFrameState (processFrameState scenarioE2E)) 0).1,
        outputSample scenarioE2E ::
          outputSample (processFrameState scenarioE2E) :: []) := rfl
  rw [h2, scenario_first_output, scenario_second_output]
